import Mathlib

/-!
Shallow embedding of the dynamic tool-set synchronization engine of the
IBM Decision Intelligence MCP server (TypeScript sources: `src/ditool.ts`,
`src/mcp-server.ts`, `src/command-line.ts`, `src/diruntimeclient.ts`).

JSON schemas are represented by their canonical serialization (a `String`);
the content fingerprint `hashInputSchema` is `JSON.stringify`, i.e. the
serialization itself.  JavaScript objects iterated with `for ... in` are
represented as `List`s in insertion order.  Asynchronous functions that can
reject are embedded as `Except String` values.  The live tool registry of
the tool-serving protocol layer is an external collaborator; it is modelled
from the spec interface (registerTool returning an opaque handle,
handle.update, handle.remove, notifyToolListChanged).
-/

namespace DIMcp

/-- Replacement of every occurrence of the character c by d.  This embeds the
JavaScript `s.replaceAll(c, d)` for a single-character pattern, which rewrites
the string character by character. -/
def replaceAllChar (c d : Char) (s : String) : String :=
  ⟨s.data.map (fun x => if x = c then d else x)⟩

/-- Embeds the substitution chain `.replaceAll(" ", "_").replaceAll("/", "_")`
of `generateToolName` (src/ditool.ts line 61). -/
def sanitizeToolName (s : String) : String :=
  replaceAllChar '/' '_' (replaceAllChar ' ' '_' s)

/-- Embeds `generateToolName` (src/ditool.ts lines 58-70).  The thrown
`Error` is embedded as `Except.error` carrying the message built there. -/
def generateToolName (operationId decisionServiceName decisionServiceId : String)
    (toolNames : List String) : Except String String :=
  let toolName := sanitizeToolName (decisionServiceName ++ " " ++ operationId)
  if toolNames.contains toolName then
    let fallback := sanitizeToolName (decisionServiceId ++ " " ++ operationId)
    if toolNames.contains fallback then
      Except.error ("Tool name " ++ fallback ++ " already exist")
    else
      Except.ok fallback
  else
    Except.ok toolName

/-- One `post` operation of an OpenAPI path item: `operationId`, `summary`,
`description` and the request-body input schema (already expanded; absent when
the path declares no request body).  Mirrors what `getToolDefinition` and
`processOpenAPIPaths` read from `OpenAPIV3_1.PathItemObject`. -/
structure PostOp where
  operationId : Option String
  summary : Option String
  descr : Option String
  requestBody : Option String
  deriving Repr, DecidableEq

/-- One OpenAPI path item (only the `post` member is consulted by the code). -/
structure PathItem where
  post : Option PostOp
  deriving Repr, DecidableEq

/-- The OpenAPI document of one decision service: the `info` fields read by
`getToolName` (`x-ibm-ads-decision-service-name`, `x-ibm-ads-decision-id`) and
the path items, in object insertion order. -/
structure OpenAPIDoc where
  serviceName : String
  decisionId : String
  paths : List PathItem
  deriving Repr, DecidableEq

/-- Embeds `hashInputSchema` (src/mcp-server.ts lines 51-53): the fingerprint
of an input schema is `JSON.stringify` of it, i.e. the serialization by which
schemas are represented here. -/
def hashInputSchema (inputSchema : String) : String :=
  inputSchema

/-- The candidate tool contents computed by `getToolDefinition`
(src/mcp-server.ts lines 67-89): title from the summary, description from the
description, input schema from the request body. -/
structure ToolDef where
  title : Option String
  descr : Option String
  inputSchema : String
  deriving Repr, DecidableEq

/-- Embeds `getToolDefinition` (src/mcp-server.ts lines 67-89): `null` when
the path has no `post` or no request body. -/
def getToolDefinition (path : PathItem) : Option ToolDef :=
  match path.post with
  | none => none
  | some post =>
    match post.requestBody with
    | none => none
    | some schema =>
      some { title := post.summary, descr := post.descr, inputSchema := schema }

/-- A candidate tool definition, `Omit<ToolDefinition, 'registeredTool'>` in
src/mcp-server.ts lines 37-48: the unit the reconciliation engine operates
on. -/
structure ToolMeta where
  name : String
  title : Option String
  descr : Option String
  inputSchema : String
  inputSchemaHash : String
  deploymentSpace : String
  decisionServiceId : String
  operationId : String
  openapi : OpenAPIDoc
  deriving Repr, DecidableEq

/-- Responses of the descriptor-fetch endpoint: either the OpenAPI document or
a 200 body carrying an incident structure (see src/diruntimeclient.ts,
`getDecisionServiceOpenAPI`). -/
inductive ApiResponse
  | doc (d : OpenAPIDoc)
  | incident (category : String)
  deriving Repr

/-- The remote decisioning runtime and the per-decision metadata, as consumed
by the engine.  `metadataValues` gives the `decisionServiceId` values returned
by `getMetadata` for a deployment space; `openapiRaw` is the raw response of
the descriptor fetch (`Except.error` embeds a transport failure);
`decisionMetadata` is the metadata map fetched by `getDecisionMetadata`,
keyed as in `getToolName`. -/
structure Env where
  metadataValues : String → List String
  openapiRaw : String → String → Except String ApiResponse
  decisionMetadata : String → String → List (String × String)

/-- Embeds `getDecisionServiceIds` (src/diruntimeclient.ts lines 72-82):
deduplicate the enumerated identities preserving first-seen order. -/
def getDecisionServiceIds (metadata : List String) : List String :=
  metadata.foldl (fun ids id => if ids.contains id then ids else ids ++ [id]) []

/-- Embeds `getDecisionServiceOpenAPI` (src/diruntimeclient.ts lines 105-123):
a 200 body carrying an incident structure is turned into a thrown error. -/
def getDecisionServiceOpenAPI (env : Env) (deploymentSpace decisionServiceId : String) :
    Except String OpenAPIDoc :=
  match env.openapiRaw deploymentSpace decisionServiceId with
  | Except.error e => Except.error e
  | Except.ok (ApiResponse.incident category) =>
    Except.error ("Failed to get OpenAPI for decision service " ++ decisionServiceId
      ++ " in deployment space " ++ deploymentSpace ++ ": " ++ category)
  | Except.ok (ApiResponse.doc d) => Except.ok d

/-- Lookup in a metadata map (the `metadata.map[metadataName]` access of
`getToolName`). -/
def lookupMeta (m : List (String × String)) (key : String) : Option String :=
  (m.find? (fun p => p.1 = key)).map (fun p => p.2)

/-- Embeds `getToolName` (src/ditool.ts lines 25-47): an explicit override is
read from the decision metadata under the key `"mcpToolName." ++ operationId`;
a falsy (empty) or absent value falls through to `generateToolName` via the
JavaScript `||`. -/
def getToolName (env : Env) (deploymentSpace : String) (doc : OpenAPIDoc)
    (operationId decisionServiceId : String) (toolNames : List String) :
    Except String String :=
  match lookupMeta (env.decisionMetadata deploymentSpace doc.decisionId)
      ("mcpToolName." ++ operationId) with
  | some v =>
    if v = "" then generateToolName operationId doc.serviceName decisionServiceId toolNames
    else Except.ok v
  | none => generateToolName operationId doc.serviceName decisionServiceId toolNames

/-- Builds the candidate metadata record pushed by `processOpenAPIPaths`
(src/mcp-server.ts lines 127-135). -/
def mkToolMeta (deploymentSpace : String) (doc : OpenAPIDoc) (serviceId : String)
    (toolName : String) (operationId : String) (td : ToolDef) : ToolMeta :=
  { name := toolName
    title := td.title
    descr := td.descr
    inputSchema := td.inputSchema
    inputSchemaHash := hashInputSchema td.inputSchema
    deploymentSpace := deploymentSpace
    decisionServiceId := serviceId
    operationId := operationId
    openapi := doc }

/-- The loop of `processOpenAPIPaths` (src/mcp-server.ts lines 101-136),
threading the mutable `toolNames` array.  A thrown naming conflict stops the
loop; the names pushed before the throw persist in the shared array, so the
result carries the accumulated metadata, the mutated name list and the error,
if any. -/
def processPathsLoop (env : Env) (deploymentSpace : String) (doc : OpenAPIDoc)
    (serviceId : String) :
    List PathItem → List ToolMeta → List String →
      List ToolMeta × List String × Option String
  | [], acc, toolNames => (acc, toolNames, none)
  | path :: rest, acc, toolNames =>
    match path.post with
    | none => processPathsLoop env deploymentSpace doc serviceId rest acc toolNames
    | some post =>
      match post.operationId with
      | none => processPathsLoop env deploymentSpace doc serviceId rest acc toolNames
      | some operationId =>
        match getToolDefinition path with
        | none => processPathsLoop env deploymentSpace doc serviceId rest acc toolNames
        | some td =>
          match getToolName env deploymentSpace doc operationId serviceId toolNames with
          | Except.error e => (acc, toolNames, some e)
          | Except.ok toolName =>
            processPathsLoop env deploymentSpace doc serviceId rest
              (acc ++ [mkToolMeta deploymentSpace doc serviceId toolName operationId td])
              (toolNames ++ [toolName])

/-- Embeds `processOpenAPIPaths` (src/mcp-server.ts lines 92-139): the
candidate tool definitions of one OpenAPI document, with the resulting state
of the shared `toolNames` array and the naming-conflict error, if one was
thrown. -/
def processOpenAPIPaths (env : Env) (deploymentSpace : String) (doc : OpenAPIDoc)
    (serviceId : String) (toolNames : List String) :
    List ToolMeta × List String × Option String :=
  processPathsLoop env deploymentSpace doc serviceId doc.paths [] toolNames

/-- The configuration values the engine consumes (src/command-line.ts):
deployment spaces, the optional explicit decision-service ids, and the poll
interval in milliseconds. -/
structure Config where
  deploymentSpaces : List String
  decisionServiceIds : Option (List String)
  pollIntervalMs : Int
  deriving Repr

/-- The service identities used for one deployment space: the configured ids
when present and non-empty, otherwise the identities enumerated from the space
metadata (src/mcp-server.ts lines 221-227 and 502-510). -/
def resolvedServiceIds (env : Env) (cfg : Config) (deploymentSpace : String) :
    List String :=
  match cfg.decisionServiceIds with
  | some ids =>
    if ids.isEmpty then getDecisionServiceIds (env.metadataValues deploymentSpace) else ids
  | none => getDecisionServiceIds (env.metadataValues deploymentSpace)

/-- The inner service loop of `fetchAllToolMetadata` (src/mcp-server.ts lines
229-242).  Each service processes its paths with a fresh empty `toolNames`
array; a fetch failure or naming conflict rejects the whole snapshot. -/
def fetchServicesLoop (env : Env) (deploymentSpace : String) :
    List String → List ToolMeta → Except String (List ToolMeta)
  | [], acc => Except.ok acc
  | serviceId :: rest, acc =>
    match getDecisionServiceOpenAPI env deploymentSpace serviceId with
    | Except.error e => Except.error e
    | Except.ok doc =>
      match processOpenAPIPaths env deploymentSpace doc serviceId [] with
      | (_, _, some e) => Except.error e
      | (toolMeta, _, none) => fetchServicesLoop env deploymentSpace rest (acc ++ toolMeta)

/-- The deployment-space loop of `fetchAllToolMetadata`. -/
def fetchSpacesLoop (env : Env) (cfg : Config) :
    List String → List ToolMeta → Except String (List ToolMeta)
  | [], acc => Except.ok acc
  | deploymentSpace :: rest, acc =>
    match fetchServicesLoop env deploymentSpace
        (resolvedServiceIds env cfg deploymentSpace) acc with
    | Except.error e => Except.error e
    | Except.ok acc2 => fetchSpacesLoop env cfg rest acc2

/-- Embeds `fetchAllToolMetadata` (src/mcp-server.ts lines 216-246): the full
candidate set of one polling discovery pass.  Note that the `toolNames`
argument given to `processOpenAPIPaths` is the literal `[]` for every service
(line 238). -/
def fetchAllToolMetadata (env : Env) (cfg : Config) : Except String (List ToolMeta) :=
  fetchSpacesLoop env cfg cfg.deploymentSpaces []

/-- One entry of the live tool registry of the tool-serving protocol layer.
Modelled from the spec: the layer is an external collaborator (spec sections 1
and 6); an entry holds the registered name, title, description and input
schema, the identity of the opaque handle returned by `registerTool`, and the
back-reference captured by the execution callback built in
`createDecisionExecutionCallback` (deployment space, decision-service id,
operation id). -/
structure RegEntry where
  id : Nat
  name : String
  title : Option String
  descr : Option String
  inputSchema : String
  cbDeploymentSpace : String
  cbDecisionServiceId : String
  cbOperationId : String
  deriving Repr, DecidableEq

/-- One element of the `currentToolDefinitions` array (`ToolDefinition` in
src/mcp-server.ts lines 37-48): the candidate metadata plus the handle of the
`RegisteredTool` returned at registration. -/
structure TrackedTool where
  meta : ToolMeta
  handleId : Nat
  deriving Repr, DecidableEq

/-- The state owned by the engine: the live registry (modelled from the spec
interface, in registration order), the tracked `currentToolDefinitions` array,
the next fresh handle identity, and the number of tool-list-changed
notifications emitted so far. -/
structure ServerState where
  nextId : Nat
  registry : List RegEntry
  tracked : List TrackedTool
  notifications : Nat
  deriving Repr, DecidableEq

/-- The empty server state at process start. -/
def initialServerState : ServerState :=
  { nextId := 0, registry := [], tracked := [], notifications := 0 }

/-- Registry mutations observable during one reconciliation pass. -/
inductive ToolEvent
  | add (name : String)
  | remove (name : String)
  | update (name : String)
  deriving Repr, DecidableEq

/-- Tests whether an event is a removal. -/
def ToolEvent.isRemove : ToolEvent → Bool
  | ToolEvent.remove _ => true
  | _ => false

/-- Modelled from the spec: the protocol-layer operation taking a name, a spec
and a callback and returning a handle (spec section 6, `registerTool`), which
places a new entry into the live registry and returns its opaque handle. -/
def registerToolPrim (s : ServerState) (m : ToolMeta) : ServerState × Nat :=
  ({ s with
      nextId := s.nextId + 1
      registry := s.registry ++
        [{ id := s.nextId
           name := m.name
           title := m.title
           descr := m.descr
           inputSchema := m.inputSchema
           cbDeploymentSpace := m.deploymentSpace
           cbDecisionServiceId := m.decisionServiceId
           cbOperationId := m.operationId }] },
    s.nextId)

/-- Modelled from the spec: `handle.remove()` deletes the handle entry from
the live registry. -/
def removeToolHandle (s : ServerState) (handleId : Nat) : ServerState :=
  { s with registry := s.registry.filter (fun e => e.id ≠ handleId) }

/-- Modelled from the spec: `handle.update(newSpec)` replaces title,
description, schema and callback of the handle entry in place. -/
def updateToolHandle (s : ServerState) (handleId : Nat) (title descr : Option String)
    (inputSchema deploymentSpace decisionServiceId operationId : String) : ServerState :=
  { s with registry := s.registry.map (fun e =>
      if e.id = handleId then
        { e with
            title := title
            descr := descr
            inputSchema := inputSchema
            cbDeploymentSpace := deploymentSpace
            cbDecisionServiceId := decisionServiceId
            cbOperationId := operationId }
      else e) }

/-- Modelled from the spec: `notifyToolListChanged()` emits a tool-list-changed
signal to all connected clients (spec section 6).  No function of the engine
embedded below invokes it. -/
def notifyToolListChanged (s : ServerState) : ServerState :=
  { s with notifications := s.notifications + 1 }

/-- Embeds `registerDecisionOperationTool` (src/mcp-server.ts lines 165-187):
register the candidate with the server and push the complete definition with
its handle onto the tracked array. -/
def registerDecisionOperationTool (s : ServerState) (m : ToolMeta) : ServerState :=
  let r := registerToolPrim s m
  { r.1 with tracked := r.1.tracked ++ [{ meta := m, handleId := r.2 }] }

/-- Embeds `removeDeletedTools` (src/mcp-server.ts lines 249-262): every
tracked tool whose name is absent from the new candidate map is removed from
the live registry through its handle and spliced out of the tracked array.
The source iterates the array in reverse, so the removal events appear in
reverse array order; the net effect on both lists is a filter. -/
def removeDeletedTools (s : ServerState) (newNames : List String) :
    ServerState × List ToolEvent :=
  let removed := s.tracked.filter (fun t => ¬ newNames.contains t.meta.name)
  ({ s with
      registry := s.registry.filter
        (fun e => ¬ removed.any (fun t => t.handleId = e.id))
      tracked := s.tracked.filter (fun t => newNames.contains t.meta.name) },
    removed.reverse.map (fun t => ToolEvent.remove t.meta.name))

/-- Lookup in the name-keyed `existingToolsMap` built by `performToolCheck`
(src/mcp-server.ts lines 365-367).  A JavaScript `Map` constructed from pairs
keeps the last pair for a duplicated key, hence the reverse search. -/
def mapGetTracked (tools : List TrackedTool) (name : String) : Option TrackedTool :=
  tools.reverse.find? (fun t => t.meta.name = name)

/-- Embeds the path lookup of `updateExistingTool` (src/mcp-server.ts lines
272-275): the first path item whose `post.operationId` equals the candidate
operation id. -/
def findPathByOperationId (doc : OpenAPIDoc) (operationId : String) : Option PathItem :=
  doc.paths.find? (fun p =>
    match p.post with
    | some post => post.operationId = some operationId
    | none => false)

/-- Embeds `updateExistingTool` (src/mcp-server.ts lines 265-308): re-derive
the tool definition from the OpenAPI document stored in the candidate, update
the registry entry through the stored handle (new title, description, schema
and callback) and update the tracked metadata (title, description, fingerprint
and document).  Returns the new state and whether the update was performed. -/
def updateExistingTool (s : ServerState) (existingTool : TrackedTool)
    (newToolMeta : ToolMeta) : ServerState × Bool :=
  match findPathByOperationId newToolMeta.openapi newToolMeta.operationId with
  | none => (s, false)
  | some pathItem =>
    match getToolDefinition pathItem with
    | none => (s, false)
    | some mcpToolDef =>
      let s2 := updateToolHandle s existingTool.handleId newToolMeta.title
        newToolMeta.descr mcpToolDef.inputSchema newToolMeta.deploymentSpace
        newToolMeta.decisionServiceId newToolMeta.operationId
      ({ s2 with tracked := s2.tracked.map (fun t =>
          if t.handleId = existingTool.handleId then
            { t with meta := { t.meta with
                title := newToolMeta.title
                descr := newToolMeta.descr
                inputSchemaHash := newToolMeta.inputSchemaHash
                openapi := newToolMeta.openapi } }
          else t) },
        true)

/-- Embeds `ToolChangeMonitor.hasSchemaChanged` (src/mcp-server.ts lines
441-446): schema drift is detected purely by fingerprint inequality. -/
def hasSchemaChanged (existingTool : TrackedTool) (newToolMeta : ToolMeta) : Bool :=
  existingTool.meta.inputSchemaHash ≠ newToolMeta.inputSchemaHash

/-- Embeds `ToolChangeMonitor.processToolChanges` (src/mcp-server.ts lines
389-405): for each candidate, register it when its name is absent from the
map of pre-pass tools, otherwise update it when the fingerprint differs.  The
map snapshot is fixed before the loop and not extended by additions. -/
def processToolChanges (s : ServerState) (existingToolsMap : List TrackedTool) :
    List ToolMeta → ServerState × List ToolEvent
  | [] => (s, [])
  | newToolMeta :: rest =>
    match mapGetTracked existingToolsMap newToolMeta.name with
    | none =>
      let r := processToolChanges (registerDecisionOperationTool s newToolMeta)
        existingToolsMap rest
      (r.1, ToolEvent.add newToolMeta.name :: r.2)
    | some existingTool =>
      if hasSchemaChanged existingTool newToolMeta then
        let u := updateExistingTool s existingTool newToolMeta
        let r := processToolChanges u.1 existingToolsMap rest
        (r.1, if u.2 then ToolEvent.update newToolMeta.name :: r.2 else r.2)
      else
        processToolChanges s existingToolsMap rest

/-- The reconciliation applied to a fetched candidate set, i.e.
`ToolChangeMonitor.performToolCheck` after its `await fetchAllToolMetadata`
(src/mcp-server.ts lines 362-383): build the maps, remove deleted tools, then
process additions and updates. -/
def applyToolCheck (s : ServerState) (newToolMetadata : List ToolMeta) :
    ServerState × List ToolEvent :=
  let existingToolsMap := s.tracked
  let rem := removeDeletedTools s (newToolMetadata.map (fun m => m.name))
  let chg := processToolChanges rem.1 existingToolsMap newToolMetadata
  (chg.1, rem.2 ++ chg.2)

/-- Embeds `ToolChangeMonitor.performToolCheck` (src/mcp-server.ts lines
357-383): fetch the candidate set, then reconcile; a rejected fetch
propagates. -/
def performToolCheck (env : Env) (cfg : Config) (s : ServerState) :
    Except String (ServerState × List ToolEvent) :=
  match fetchAllToolMetadata env cfg with
  | Except.error e => Except.error e
  | Except.ok newToolMetadata => Except.ok (applyToolCheck s newToolMetadata)

/-- Embeds one whole non-overlapping run of `ToolChangeMonitor.checkForChanges`
(src/mcp-server.ts lines 334-351): errors of the pass are caught and logged,
leaving the state as the pass left it (here: a failed fetch mutates
nothing). -/
def checkForChanges (env : Env) (cfg : Config) (s : ServerState) :
    ServerState × List ToolEvent :=
  match performToolCheck env cfg s with
  | Except.error _ => (s, [])
  | Except.ok r => r

/-- Embeds `registerDecisionServiceTools` (src/mcp-server.ts lines 189-213)
together with the per-service try/catch of `createMcpServer` (lines 513-522):
fetch the descriptor and register the candidate tools of one service during
startup, sharing the `toolNames` array across services.  On a fetch failure or
a naming conflict the error is caught and the service is skipped; names pushed
before a mid-service conflict persist in the shared array, while the metadata
of the rejected call is discarded. -/
def startupService (env : Env) (deploymentSpace serviceId : String)
    (s : ServerState) (toolNames : List String) : ServerState × List String :=
  match getDecisionServiceOpenAPI env deploymentSpace serviceId with
  | Except.error _ => (s, toolNames)
  | Except.ok doc =>
    match processOpenAPIPaths env deploymentSpace doc serviceId toolNames with
    | (_, toolNames2, some _) => (s, toolNames2)
    | (toolMeta, toolNames2, none) =>
      (toolMeta.foldl registerDecisionOperationTool s, toolNames2)

/-- The service loop of the startup discovery in `createMcpServer`. -/
def startupServicesLoop (env : Env) (deploymentSpace : String) :
    List String → ServerState → List String → ServerState × List String
  | [], s, toolNames => (s, toolNames)
  | serviceId :: rest, s, toolNames =>
    let (s2, toolNames2) := startupService env deploymentSpace serviceId s toolNames
    startupServicesLoop env deploymentSpace rest s2 toolNames2

/-- The deployment-space loop of the startup discovery in `createMcpServer`. -/
def startupSpacesLoop (env : Env) (cfg : Config) :
    List String → ServerState → List String → ServerState × List String
  | [], s, toolNames => (s, toolNames)
  | deploymentSpace :: rest, s, toolNames =>
    let (s2, toolNames2) := startupServicesLoop env deploymentSpace
      (resolvedServiceIds env cfg deploymentSpace) s toolNames
    startupSpacesLoop env cfg rest s2 toolNames2

/-- Embeds the initial startup registration of `createMcpServer`
(src/mcp-server.ts lines 496-523): iterate the configured deployment spaces,
resolve the service identities, and register each service with the shared
`toolNames` array, starting from the empty state. -/
def startupRegister (env : Env) (cfg : Config) : ServerState × List String :=
  startupSpacesLoop env cfg cfg.deploymentSpaces initialServerState []

/-- The observable state of the `ToolChangeMonitor` singleton: the private
`isPolling` latch and the server state it guards. -/
structure MonitorState where
  isPolling : Bool
  server : ServerState
  deriving Repr, DecidableEq

/-- Atomic steps of `ToolChangeMonitor.checkForChanges` under cooperative
scheduling.  One pass has exactly one suspension region: every await occurs
inside `fetchAllToolMetadata`, before any registry mutation, and the
reconciliation after it runs synchronously.  `tick` is the timer callback
entering `checkForChanges` (lines 339-343): it returns at once when
`isPolling` is set, otherwise it sets the latch and starts the fetch.
`complete r` is the resumption of a started pass with the fetch outcome `r`:
an error is caught by the catch block and the finally block clears the latch
(lines 346-350); a successful fetch reconciles against the current state and
the finally block clears the latch. -/
inductive MonitorAction
  | tick
  | complete (r : Except String (List ToolMeta))

/-- The transition function of the `ToolChangeMonitor` state machine, paired
with the registry events the step performs. -/
def monitorStep (ms : MonitorState) : MonitorAction → MonitorState × List ToolEvent
  | MonitorAction.tick =>
    if ms.isPolling then (ms, [])
    else ({ ms with isPolling := true }, [])
  | MonitorAction.complete r =>
    if ms.isPolling then
      match r with
      | Except.error _ => ({ ms with isPolling := false }, [])
      | Except.ok newToolMetadata =>
        let r := applyToolCheck ms.server newToolMetadata
        ({ isPolling := false, server := r.1 }, r.2)
    else (ms, [])

/-- Embeds the JavaScript `parseInt(s, 10)`: skip leading whitespace, read an
optional sign, then the longest prefix of decimal digits; `NaN` (here `none`)
when that prefix is empty. -/
def leadingNat (cs : List Char) : Option Nat :=
  let ds := cs.takeWhile Char.isDigit
  if ds.isEmpty then none
  else some (ds.foldl (fun a c => a * 10 + (c.toNat - 48)) 0)

/-- Parses as `parseInt(s, 10)` does, yielding an integer or `none` for
`NaN`. -/
def parseIntJS (s : String) : Option Int :=
  match s.data.dropWhile Char.isWhitespace with
  | '-' :: rest => (leadingNat rest).map (fun n => -(n : Int))
  | '+' :: rest => (leadingNat rest).map (fun n => (n : Int))
  | cs => (leadingNat cs).map (fun n => (n : Int))

/-- Embeds `Configuration.validatePollInterval` (src/command-line.ts lines
303-319, the definition `createConfiguration` resolves to): the user-supplied
value is parsed as a number of seconds; absent values fall back to the default
of 30 seconds; values below 1 second are rejected; accepted values are
multiplied by 1000 and returned in milliseconds. -/
def validatePollInterval (pollInterval : Option String) : Except String Int :=
  match pollInterval with
  | none => Except.ok (30 * 1000)
  | some str =>
    match parseIntJS str with
    | none =>
      Except.error ("Invalid poll interval: " ++ str
        ++ ". Must be a valid number in seconds.")
    | some parsedIntervalSeconds =>
      if parsedIntervalSeconds < 1 then
        Except.error ("Invalid poll interval: " ++ str
          ++ ". Must be at least 1 second.")
      else
        Except.ok (parsedIntervalSeconds * 1000)

/-- A path item with one post operation carrying an operation id and a
request-body schema. -/
def pathOf (opId schema : String) : PathItem :=
  { post := some
      { operationId := some opId
        summary := none
        descr := none
        requestBody := some schema } }

/-- A decision service whose display name is `D` and whose single operation is
`op` with input schema `S1`. -/
def docDup1 : OpenAPIDoc :=
  { serviceName := "D", decisionId := "d1", paths := [pathOf "op" "S1"] }

/-- A second decision service with the same display name `D` and the same
operation id `op`, but input schema `S2`. -/
def docDup2 : OpenAPIDoc :=
  { serviceName := "D", decisionId := "d2", paths := [pathOf "op" "S2"] }

/-- A decision service with display name `B` and operation `op2`. -/
def docSurvivor : OpenAPIDoc :=
  { serviceName := "B", decisionId := "db", paths := [pathOf "op2" "SB"] }

/-- A runtime whose deployment spaces are all empty: nothing deployed. -/
def envEmpty : Env :=
  { metadataValues := fun _ => []
    openapiRaw := fun _ _ => Except.error "no such service"
    decisionMetadata := fun _ _ => [] }

/-- A runtime state in which the `development` space enumerates the two
services `s1` and `s2`, which share the display name `D` and the operation id
`op`.  No overrides are configured. -/
def envDup : Env :=
  { metadataValues := fun space => if space = "development" then ["s1", "s2"] else []
    openapiRaw := fun _ serviceId =>
      if serviceId = "s1" then Except.ok (ApiResponse.doc docDup1)
      else if serviceId = "s2" then Except.ok (ApiResponse.doc docDup2)
      else Except.error "no such service"
    decisionMetadata := fun _ _ => [] }

/-- A runtime state in which the `development` space enumerates `s1` and `s2`,
where the descriptor fetch of `s1` answers with a 200 incident body and `s2`
is healthy. -/
def envIncident : Env :=
  { metadataValues := fun space => if space = "development" then ["s1", "s2"] else []
    openapiRaw := fun _ serviceId =>
      if serviceId = "s1" then Except.ok (ApiResponse.incident "Decision not found")
      else if serviceId = "s2" then Except.ok (ApiResponse.doc docSurvivor)
      else Except.error "no such service"
    decisionMetadata := fun _ _ => [] }

/-- A runtime state in which the `development` space enumerates only the
healthy service `s2`. -/
def envSurvivor : Env :=
  { metadataValues := fun space => if space = "development" then ["s2"] else []
    openapiRaw := fun _ serviceId =>
      if serviceId = "s2" then Except.ok (ApiResponse.doc docSurvivor)
      else Except.error "no such service"
    decisionMetadata := fun _ _ => [] }

/-- The default configuration: the single deployment space `development`, no
explicit service ids, the default 30000 ms poll interval. -/
def cfgDev : Config :=
  { deploymentSpaces := ["development"]
    decisionServiceIds := none
    pollIntervalMs := 30000 }

/-- A candidate is well formed when the OpenAPI document it carries contains a
path item for its operation id with a request body, which holds for every
candidate the snapshot builder produces and guarantees that the re-derivation
inside `updateExistingTool` succeeds. -/
def metaWellFormed (m : ToolMeta) : Bool :=
  match findPathByOperationId m.openapi m.operationId with
  | some p => (getToolDefinition p).isSome
  | none => false

/-- The candidate tool that service `s1` contributes: name `D_op`, bound to
operation `op` of `s1`, schema `S1`. -/
def metaOpA : ToolMeta :=
  mkToolMeta "development" docDup1 "s1" "D_op" "op"
    { title := none, descr := none, inputSchema := "S1" }

/-- The candidate tool that service `s2` contributes on a later pass: the same
name `D_op`, now bound to operation `op` of `s2`, schema `S2`. -/
def metaOpB : ToolMeta :=
  mkToolMeta "development" docDup2 "s2" "D_op" "op"
    { title := none, descr := none, inputSchema := "S2" }

/-- A candidate for the same operation as `metaOpA` with identical input
schema `S1` but changed title and description. -/
def metaOpRetitled : ToolMeta :=
  mkToolMeta "development" docDup1 "s1" "D_op" "op"
    { title := some "New title", descr := some "New description", inputSchema := "S1" }

/-- A runtime state in which the decision `d1` carries an explicit tool-name
override entry for operation `op` whose stored value is the empty string. -/
def envEmptyOverride : Env :=
  { metadataValues := fun space => if space = "development" then ["s1"] else []
    openapiRaw := fun _ serviceId =>
      if serviceId = "s1" then Except.ok (ApiResponse.doc docDup1)
      else Except.error "no such service"
    decisionMetadata := fun _ decisionId =>
      if decisionId = "d1" then [("mcpToolName.op", "")] else [] }

/-- Registering a tool does not touch the notification counter. -/
lemma notifications_registerDecisionOperationTool (s : ServerState) (m : ToolMeta) :
    (registerDecisionOperationTool s m).notifications = s.notifications := rfl

/-- Updating a tool in place does not touch the notification counter. -/
lemma notifications_updateExistingTool (s : ServerState) (t : TrackedTool) (m : ToolMeta) :
    ((updateExistingTool s t m).1).notifications = s.notifications := by
  unfold updateExistingTool
  cases hp : findPathByOperationId m.openapi m.operationId with
  | none => rfl
  | some p =>
    cases htd : getToolDefinition p with
    | none => simp [htd]
    | some td => simp [htd, updateToolHandle]

/-- The addition-and-update phase does not touch the notification counter. -/
lemma notifications_processToolChanges (existingToolsMap : List TrackedTool) :
    ∀ (metas : List ToolMeta) (s : ServerState),
      ((processToolChanges s existingToolsMap metas).1).notifications = s.notifications := by
  intro metas
  induction metas with
  | nil => intro s; rfl
  | cons m rest ih =>
    intro s
    simp only [processToolChanges]
    cases hm : mapGetTracked existingToolsMap m.name with
    | none =>
      simpa using ih (registerDecisionOperationTool s m)
    | some t =>
      by_cases hc : hasSchemaChanged t m = true
      · simp only [hc, if_pos]
        rw [ih ((updateExistingTool s t m).1), notifications_updateExistingTool]
      · simp only [Bool.not_eq_true] at hc
        simp [hc, ih s]

/-- The removal phase does not touch the notification counter. -/
lemma notifications_removeDeletedTools (s : ServerState) (newNames : List String) :
    ((removeDeletedTools s newNames).1).notifications = s.notifications := rfl

/-- One reconciliation of a fetched candidate set does not touch the
notification counter. -/
lemma notifications_applyToolCheck (s : ServerState) (metas : List ToolMeta) :
    ((applyToolCheck s metas).1).notifications = s.notifications := by
  unfold applyToolCheck
  rw [notifications_processToolChanges, notifications_removeDeletedTools]

/-- Every event emitted by the addition-and-update phase is an addition or an
update, never a removal. -/
lemma processToolChanges_no_remove (existingToolsMap : List TrackedTool) :
    ∀ (metas : List ToolMeta) (s : ServerState),
      ∀ e ∈ (processToolChanges s existingToolsMap metas).2, e.isRemove = false := by
  intro metas
  induction metas with
  | nil => intro s e he; simp [processToolChanges] at he
  | cons m rest ih =>
    intro s e he
    simp only [processToolChanges] at he
    cases hm : mapGetTracked existingToolsMap m.name with
    | none =>
      rw [hm] at he
      simp only [List.mem_cons] at he
      rcases he with rfl | he
      · rfl
      · exact ih (registerDecisionOperationTool s m) e he
    | some t =>
      rw [hm] at he
      by_cases hc : hasSchemaChanged t m = true
      · simp only [hc, if_pos] at he
        by_cases hu : (updateExistingTool s t m).2 = true
        · simp only [hu, if_pos, List.mem_cons] at he
          rcases he with rfl | he
          · rfl
          · exact ih ((updateExistingTool s t m).1) e he
        · simp only [Bool.not_eq_true] at hu
          simp only [hu, Bool.false_eq_true, if_false] at he
          exact ih ((updateExistingTool s t m).1) e he
      · simp only [Bool.not_eq_true] at hc
        simp only [hc, Bool.false_eq_true, if_false] at he
        exact ih s e he

/-- Every event emitted by the removal phase is a removal. -/
lemma removeDeletedTools_all_remove (s : ServerState) (newNames : List String) :
    ∀ e ∈ (removeDeletedTools s newNames).2, e.isRemove = true := by
  intro e he
  simp only [removeDeletedTools, List.mem_map, List.mem_reverse] at he
  rcases he with ⟨t, _, rfl⟩
  rfl

/-- The state after registering a single candidate into the empty server:
handle 0, one registry entry, one tracked tool. -/
lemma register_single_state_eq (m0 : ToolMeta) :
    registerDecisionOperationTool initialServerState m0 =
      { nextId := 1
        registry := [{ id := 0
                       name := m0.name
                       title := m0.title
                       descr := m0.descr
                       inputSchema := m0.inputSchema
                       cbDeploymentSpace := m0.deploymentSpace
                       cbDecisionServiceId := m0.decisionServiceId
                       cbOperationId := m0.operationId }]
        tracked := [{ meta := m0, handleId := 0 }]
        notifications := 0 } := rfl

/-- A pass over one registered tool and one same-name candidate with a
differing fingerprint updates the entry in place: the handle keeps identity 0,
the registry entry takes the candidate title, description, re-derived schema
and callback binding, and the only event is an update. -/
lemma applyToolCheck_singleton_update (m0 m1 : ToolMeta) (p : PathItem) (td : ToolDef)
    (hname : m1.name = m0.name)
    (hdiff : m0.inputSchemaHash ≠ m1.inputSchemaHash)
    (hp : findPathByOperationId m1.openapi m1.operationId = some p)
    (htd : getToolDefinition p = some td) :
    applyToolCheck (registerDecisionOperationTool initialServerState m0) [m1] =
      ({ nextId := 1
         registry := [{ id := 0
                        name := m0.name
                        title := m1.title
                        descr := m1.descr
                        inputSchema := td.inputSchema
                        cbDeploymentSpace := m1.deploymentSpace
                        cbDecisionServiceId := m1.decisionServiceId
                        cbOperationId := m1.operationId }]
         tracked := [{ meta := { name := m0.name
                                 title := m1.title
                                 descr := m1.descr
                                 inputSchema := m0.inputSchema
                                 inputSchemaHash := m1.inputSchemaHash
                                 deploymentSpace := m0.deploymentSpace
                                 decisionServiceId := m0.decisionServiceId
                                 operationId := m0.operationId
                                 openapi := m1.openapi }
                       handleId := 0 }]
         notifications := 0 },
       [ToolEvent.update m1.name]) := by
  rw [register_single_state_eq]
  simp only [applyToolCheck, removeDeletedTools, processToolChanges, mapGetTracked,
    hasSchemaChanged, updateExistingTool, updateToolHandle, hname, hp, htd]
  simp [hname, hdiff, Ne.symm hdiff]

/-- A pass over one registered tool and one same-name candidate with an equal
fingerprint performs nothing: the state is untouched and no event occurs. -/
lemma applyToolCheck_singleton_same (m0 m1 : ToolMeta)
    (hname : m1.name = m0.name) (hsame : m0.inputSchemaHash = m1.inputSchemaHash) :
    applyToolCheck (registerDecisionOperationTool initialServerState m0) [m1] =
      (registerDecisionOperationTool initialServerState m0, []) := by
  rw [register_single_state_eq]
  simp only [applyToolCheck, removeDeletedTools, processToolChanges, mapGetTracked,
    hasSchemaChanged]
  simp [hname, hsame]

/-- The sanitized join of two strings around a space is never the empty
string, since character replacement preserves the length. -/
lemma sanitizeToolName_append_ne_empty (a b : String) :
    sanitizeToolName (a ++ " " ++ b) ≠ "" := by
  intro h
  have hlen : (sanitizeToolName (a ++ " " ++ b)).data.length = 0 := by rw [h]; rfl
  simp [sanitizeToolName, replaceAllChar, String.data_append] at hlen

/-- A well-formed candidate yields a path item and a tool definition for the
re-derivation performed by `updateExistingTool`. -/
lemma metaWellFormed_elim (m : ToolMeta) (hwf : metaWellFormed m = true) :
    ∃ p, findPathByOperationId m.openapi m.operationId = some p ∧
      ∃ td, getToolDefinition p = some td := by
  unfold metaWellFormed at hwf
  cases hpp : findPathByOperationId m.openapi m.operationId with
  | none => rw [hpp] at hwf; simp at hwf
  | some p =>
    rw [hpp] at hwf
    have hwf2 : (getToolDefinition p).isSome = true := hwf
    rw [Option.isSome_iff_exists] at hwf2
    obtain ⟨td, htd⟩ := hwf2
    exact ⟨p, rfl, td, htd⟩

/-- A whole catch-guarded reconciliation pass does not touch the notification
counter: no code path of the engine invokes `notifyToolListChanged`. -/
lemma notifications_checkForChanges (env : Env) (cfg : Config) (s : ServerState) :
    ((checkForChanges env cfg s).1).notifications = s.notifications := by
  unfold checkForChanges performToolCheck
  cases h : fetchAllToolMetadata env cfg with
  | error e => rfl
  | ok metas => exact notifications_applyToolCheck s metas

/-- C1: the uniqueness invariant fails on the code.  After a startup pass over
an empty deployment space, a single polling pass in which enumeration now
yields two services sharing a display name and an operation id registers two
live-registry entries with the identical name `D_op`: the polling snapshot
builder hands `processOpenAPIPaths` a fresh empty name set per service and the
pre-pass `existingToolsMap` is never extended by additions, so both same-name
candidates are registered. -/
theorem poll_pass_registers_duplicate_names :
    (startupRegister envEmpty cfgDev).1 = initialServerState ∧
    ((checkForChanges envDup cfgDev (startupRegister envEmpty cfgDev).1).1.registry.map
        (fun e => e.name)) = ["D_op", "D_op"] ∧
    ¬ ((checkForChanges envDup cfgDev (startupRegister envEmpty cfgDev).1).1.registry.map
        (fun e => e.name)).Nodup :=
  ⟨rfl, rfl, by decide⟩

/-- C2: the polling snapshot builder fails to feed the running name set across
service boundaries.  With two services sharing display name `D` and operation
id `op`, `fetchAllToolMetadata` produces the candidate set whose names are
`D_op, D_op` — not pairwise distinct — because each service is processed with
the literal empty name list. -/
theorem polling_snapshot_duplicate_candidate_names :
    ∃ metas, fetchAllToolMetadata envDup cfgDev = Except.ok metas ∧
      metas.map (fun m => m.name) = ["D_op", "D_op"] ∧
      ¬ (metas.map (fun m => m.name)).Nodup := by
  refine ⟨_, rfl, rfl, by decide⟩

/-- C3: per-service isolation holds only at startup.  With service `s1`
answering a 200 incident body and `s2` healthy, the startup pass registers
exactly the surviving service's operation, but the polling snapshot rejects as
a whole — `fetchAllToolMetadata` has no per-service catch — so a polling pass
in this situation mutates nothing and produces no candidates at all instead of
the surviving service's operations. -/
theorem per_service_isolation_startup_only :
    ((startupRegister envIncident cfgDev).1.registry.map (fun e => e.name)) = ["B_op2"] ∧
    fetchAllToolMetadata envIncident cfgDev =
      Except.error
        "Failed to get OpenAPI for decision service s1 in deployment space development: Decision not found" ∧
    (∀ s : ServerState, checkForChanges envIncident cfgDev s = (s, [])) :=
  ⟨rfl, rfl, fun _ => rfl⟩

/-- C4: no reconciliation pass reports a changed flag or emits a tool-list
-changed notification.  The notification counter is invariant under every
pass, and in particular a pass that registers a new tool (a change) leaves it
at zero. -/
theorem changed_pass_emits_no_notification :
    (∀ (env : Env) (cfg : Config) (s : ServerState),
      ((checkForChanges env cfg s).1).notifications = s.notifications) ∧
    (checkForChanges envSurvivor cfgDev initialServerState).2 = [ToolEvent.add "B_op2"] ∧
    ((checkForChanges envSurvivor cfgDev initialServerState).1).notifications = 0 :=
  ⟨notifications_checkForChanges, rfl, rfl⟩

/-- C5: with no explicit override the allocator returns the display name
joined to the operation id by a space with every space and slash replaced by
an underscore; if that name is taken it returns the decision-service identity
under the same substitution; if the fallback is also taken it throws a
naming-conflict error naming the colliding name. -/
theorem toolName_allocation_cases (operationId displayName decisionServiceId : String)
    (toolNames : List String) :
    (toolNames.contains (sanitizeToolName (displayName ++ " " ++ operationId)) = false →
      generateToolName operationId displayName decisionServiceId toolNames =
        Except.ok (sanitizeToolName (displayName ++ " " ++ operationId))) ∧
    (toolNames.contains (sanitizeToolName (displayName ++ " " ++ operationId)) = true →
      toolNames.contains (sanitizeToolName (decisionServiceId ++ " " ++ operationId)) = false →
      generateToolName operationId displayName decisionServiceId toolNames =
        Except.ok (sanitizeToolName (decisionServiceId ++ " " ++ operationId))) ∧
    (toolNames.contains (sanitizeToolName (displayName ++ " " ++ operationId)) = true →
      toolNames.contains (sanitizeToolName (decisionServiceId ++ " " ++ operationId)) = true →
      generateToolName operationId displayName decisionServiceId toolNames =
        Except.error ("Tool name "
          ++ sanitizeToolName (decisionServiceId ++ " " ++ operationId)
          ++ " already exist")) := by
  refine ⟨?_, ?_, ?_⟩
  · intro h1
    simp at h1
    simp [generateToolName, h1]
  · intro h1 h2
    simp at h1 h2
    simp [generateToolName, h1, h2]
  · intro h1 h2
    simp at h1 h2
    simp [generateToolName, h1, h2]

/-- Witness for C5: the three allocation outcomes at concrete inputs,
including the substitution of spaces and slashes. -/
theorem toolName_allocation_cases_witness :
    generateToolName "approval" "My Service" "svc1" [] = Except.ok "My_Service_approval" ∧
    generateToolName "approval" "My Service" "svc/1" ["My_Service_approval"] =
      Except.ok "svc_1_approval" ∧
    generateToolName "approval" "My Service" "svc/1" ["My_Service_approval", "svc_1_approval"] =
      Except.error "Tool name svc_1_approval already exist" := by
  refine ⟨?_, ?_, ?_⟩
  · have ha := (toolName_allocation_cases "approval" "My Service" "svc1" []).1 rfl
    exact ha.trans (congrArg Except.ok (by decide))
  · have hb := (toolName_allocation_cases "approval" "My Service" "svc/1"
      ["My_Service_approval"]).2.1 (by decide) (by decide)
    exact hb.trans (congrArg Except.ok (by decide))
  · have hc := (toolName_allocation_cases "approval" "My Service" "svc/1"
      ["My_Service_approval", "svc_1_approval"]).2.2 (by decide) (by decide)
    exact hc.trans (congrArg Except.error (by decide))

/-- C6: for a registered tool and a same-name candidate, an in-place update is
performed exactly when the stored fingerprint differs from the candidate's
fingerprint; on a fingerprint match the pass performs no update, reports no
change, and the registry entry keeps its old title and description. -/
theorem fingerprint_only_update_trigger (m0 m1 : ToolMeta)
    (hname : m1.name = m0.name) (hwf : metaWellFormed m1 = true) :
    ((applyToolCheck (registerDecisionOperationTool initialServerState m0) [m1]).2.contains
        (ToolEvent.update m1.name) = true ↔ m0.inputSchemaHash ≠ m1.inputSchemaHash) ∧
    (m0.inputSchemaHash = m1.inputSchemaHash →
      applyToolCheck (registerDecisionOperationTool initialServerState m0) [m1] =
        (registerDecisionOperationTool initialServerState m0, []) ∧
      ((applyToolCheck (registerDecisionOperationTool initialServerState m0) [m1]).1.registry.map
          (fun e => (e.title, e.descr))) = [(m0.title, m0.descr)]) := by
  obtain ⟨p, hp, td, htd⟩ := metaWellFormed_elim m1 hwf
  constructor
  · by_cases hd : m0.inputSchemaHash = m1.inputSchemaHash
    · rw [applyToolCheck_singleton_same m0 m1 hname hd]
      simp [hd]
    · rw [applyToolCheck_singleton_update m0 m1 p td hname hd hp htd]
      simp [hd]
  · intro hd
    rw [applyToolCheck_singleton_same m0 m1 hname hd, register_single_state_eq]
    exact ⟨rfl, rfl⟩

/-- Witness for C6: a candidate with identical schema `S1` but new title and
description leaves the pass a no-op. -/
theorem fingerprint_only_update_trigger_witness :
    applyToolCheck (registerDecisionOperationTool initialServerState metaOpA) [metaOpRetitled] =
      (registerDecisionOperationTool initialServerState metaOpA, []) :=
  ((fingerprint_only_update_trigger metaOpA metaOpRetitled rfl rfl).2 rfl).1

/-- Counterexample for C7: when pass N has `D_op` bound to operation `op` of
service `s1` and pass N+1 binds the same name to service `s2`, the pass does
NOT remove the old entry and register a new one: the sole event is an update,
the registry entry keeps the original handle identity 0, no fresh handle is
allocated, and the entry is rebound to `s2` in place. -/
theorem rebound_name_is_updated_not_readded :
    (applyToolCheck (registerDecisionOperationTool initialServerState metaOpA) [metaOpB]).2 =
      [ToolEvent.update "D_op"] ∧
    ((applyToolCheck (registerDecisionOperationTool initialServerState metaOpA)
        [metaOpB]).1.registry.map (fun e => (e.id, e.name, e.cbDecisionServiceId))) =
      [(0, "D_op", "s2")] ∧
    ((applyToolCheck (registerDecisionOperationTool initialServerState metaOpA)
        [metaOpB]).1.nextId = 1) :=
  ⟨rfl, rfl, rfl⟩

/-- C7 (amended): every reconciliation pass performs all removals before every
addition or update, and a name that persists into the new candidate set bound
to a different operation is never removed — when its fingerprint differs it is
updated in place through its existing handle, rebinding the callback to the
new operation, with no duplicate-name error and the registry names staying
duplicate-free. -/
theorem reconciliation_removals_first_then_update_in_place
    (s : ServerState) (metas : List ToolMeta) (m0 m1 : ToolMeta) (p : PathItem) (td : ToolDef)
    (hname : m1.name = m0.name) (hdiff : m0.inputSchemaHash ≠ m1.inputSchemaHash)
    (hp : findPathByOperationId m1.openapi m1.operationId = some p)
    (htd : getToolDefinition p = some td) :
    (∃ ev1 ev2, (applyToolCheck s metas).2 = ev1 ++ ev2 ∧
      (∀ e ∈ ev1, e.isRemove = true) ∧ (∀ e ∈ ev2, e.isRemove = false)) ∧
    ((applyToolCheck (registerDecisionOperationTool initialServerState m0) [m1]).2 =
        [ToolEvent.update m1.name] ∧
      ((applyToolCheck (registerDecisionOperationTool initialServerState m0)
          [m1]).1.registry.map
          (fun e => (e.id, e.name, e.cbDeploymentSpace, e.cbDecisionServiceId,
            e.cbOperationId))) =
        [(0, m0.name, m1.deploymentSpace, m1.decisionServiceId, m1.operationId)] ∧
      ((applyToolCheck (registerDecisionOperationTool initialServerState m0)
          [m1]).1.registry.map (fun e => e.name)).Nodup) := by
  constructor
  · refine ⟨(removeDeletedTools s (metas.map (fun m => m.name))).2,
      (processToolChanges (removeDeletedTools s (metas.map (fun m => m.name))).1
        s.tracked metas).2, ?_, ?_, ?_⟩
    · rfl
    · exact removeDeletedTools_all_remove s (metas.map (fun m => m.name))
    · exact processToolChanges_no_remove s.tracked metas
        (removeDeletedTools s (metas.map (fun m => m.name))).1
  · rw [applyToolCheck_singleton_update m0 m1 p td hname hdiff hp htd]
    exact ⟨rfl, rfl, by simp⟩

/-- Witness for the amended C7 at the concrete rebinding scenario. -/
theorem reconciliation_removals_first_witness :
    ((applyToolCheck (registerDecisionOperationTool initialServerState metaOpA)
        [metaOpB]).1.registry.map (fun e => e.name)).Nodup :=
  (reconciliation_removals_first_then_update_in_place initialServerState [] metaOpA metaOpB
    (pathOf "op" "S2") { title := none, descr := none, inputSchema := "S2" }
    rfl (by decide) rfl rfl).2.2.2

/-- C8: a scheduler tick that fires while a pass is in flight returns
immediately — the monitor state is unchanged and no registry event occurs —
and the in-flight latch is cleared when the started pass completes, whether
the fetch resolved or rejected. -/
theorem concurrent_pass_skip (ms : MonitorState) (h : ms.isPolling = true)
    (r : Except String (List ToolMeta)) :
    monitorStep ms MonitorAction.tick = (ms, []) ∧
    ((monitorStep ms (MonitorAction.complete r)).1).isPolling = false := by
  constructor
  · simp [monitorStep, h]
  · cases r with
    | error e => simp [monitorStep, h]
    | ok metas => simp [monitorStep, h]

/-- Witness for C8: a busy monitor over the empty server skips a tick and
clears the latch when the slow fetch finally rejects. -/
theorem concurrent_pass_skip_witness :
    monitorStep { isPolling := true, server := initialServerState } MonitorAction.tick =
      ({ isPolling := true, server := initialServerState }, []) ∧
    ((monitorStep { isPolling := true, server := initialServerState }
        (MonitorAction.complete (Except.error "slow fetch"))).1).isPolling = false :=
  concurrent_pass_skip { isPolling := true, server := initialServerState } rfl
    (Except.error "slow fetch")

/-- Counterexample for C9: the supplied value `5` is accepted and yields a
5000 ms timer period, so the value is neither rejected as below a 1000 ms
minimum nor used unchanged as milliseconds. -/
theorem pollInterval_counterexample :
    validatePollInterval (some "5") = Except.ok 5000 ∧ (5000 : Int) ≠ 5 :=
  ⟨rfl, by decide⟩

/-- C9 (amended): the poll interval is consumed as a value in seconds with a
default of 30000 ms when absent; validation rejects every supplied value that
does not parse as a number and every value below 1 second; every accepted
value is multiplied by 1000 and used as the timer period in milliseconds, so
every accepted period is at least 1000 ms. -/
theorem validatePollInterval_seconds_contract :
    validatePollInterval none = Except.ok 30000 ∧
    (∀ str : String, parseIntJS str = none →
      validatePollInterval (some str) =
        Except.error ("Invalid poll interval: " ++ str ++ ". Must be a valid number in seconds.")) ∧
    (∀ (str : String) (n : Int), parseIntJS str = some n → n < 1 →
      validatePollInterval (some str) =
        Except.error ("Invalid poll interval: " ++ str ++ ". Must be at least 1 second.")) ∧
    (∀ (str : String) (n : Int), parseIntJS str = some n → 1 ≤ n →
      validatePollInterval (some str) = Except.ok (n * 1000)) ∧
    (∀ (x : Option String) (v : Int), validatePollInterval x = Except.ok v → 1000 ≤ v) := by
  refine ⟨rfl, ?_, ?_, ?_, ?_⟩
  · intro str hp
    simp [validatePollInterval, hp]
  · intro str n hp hn
    simp [validatePollInterval, hp, hn]
  · intro str n hp hn
    simp [validatePollInterval, hp, not_lt.mpr hn]
  · intro x v hv
    cases x with
    | none =>
      simp only [validatePollInterval, Except.ok.injEq] at hv
      omega
    | some str =>
      simp only [validatePollInterval] at hv
      cases hp : parseIntJS str with
      | none => rw [hp] at hv; simp at hv
      | some n =>
        rw [hp] at hv
        by_cases hn : n < 1
        · simp [hn] at hv
        · simp [hn] at hv
          omega

/-- Witness for the amended C9: a non-numeric value and a too-small value are
rejected, and 60 seconds is accepted as 60000 ms. -/
theorem validatePollInterval_seconds_contract_witness :
    validatePollInterval (some "abc") =
      Except.error "Invalid poll interval: abc. Must be a valid number in seconds." ∧
    validatePollInterval (some "0") =
      Except.error "Invalid poll interval: 0. Must be at least 1 second." ∧
    validatePollInterval (some "60") = Except.ok 60000 := by
  have h := validatePollInterval_seconds_contract
  refine ⟨?_, ?_, ?_⟩
  · have ha := h.2.1 "abc" rfl
    exact ha.trans (congrArg Except.error (by decide))
  · have hb := h.2.2.1 "0" 0 rfl (by decide)
    exact hb.trans (congrArg Except.error (by decide))
  · have hc := h.2.2.2.1 "60" 60 rfl (by decide)
    exact hc.trans (congrArg Except.ok (by decide))

/-- C10: when the per-decision metadata holds the override entry keyed
`mcpToolName.` plus the operation id with an empty stored value, `getToolName`
behaves as if the override were absent, returning the generated default name
(display name plus operation id under the underscore substitution), and an
empty string is never the returned tool name. -/
theorem empty_override_uses_generated_name (env : Env) (deploymentSpace : String)
    (doc : OpenAPIDoc) (operationId decisionServiceId : String) (toolNames : List String)
    (hov : lookupMeta (env.decisionMetadata deploymentSpace doc.decisionId)
        ("mcpToolName." ++ operationId) = some "") :
    getToolName env deploymentSpace doc operationId decisionServiceId toolNames =
      generateToolName operationId doc.serviceName decisionServiceId toolNames ∧
    (toolNames.contains (sanitizeToolName (doc.serviceName ++ " " ++ operationId)) = false →
      getToolName env deploymentSpace doc operationId decisionServiceId toolNames =
        Except.ok (sanitizeToolName (doc.serviceName ++ " " ++ operationId))) ∧
    (∀ r : String,
      getToolName env deploymentSpace doc operationId decisionServiceId toolNames =
        Except.ok r → r ≠ "") := by
  have hgt : getToolName env deploymentSpace doc operationId decisionServiceId toolNames =
      generateToolName operationId doc.serviceName decisionServiceId toolNames := by
    simp [getToolName, hov]
  refine ⟨hgt, ?_, ?_⟩
  · intro h1
    simp at h1
    rw [hgt]
    simp [generateToolName, h1]
  · intro r hr
    rw [hgt] at hr
    simp only [generateToolName] at hr
    cases hx : toolNames.contains (sanitizeToolName (doc.serviceName ++ " " ++ operationId)) with
    | false =>
      rw [hx] at hr
      simp only [Bool.false_eq_true, if_false, Except.ok.injEq] at hr
      subst hr
      exact sanitizeToolName_append_ne_empty doc.serviceName operationId
    | true =>
      rw [hx] at hr
      simp only [if_true] at hr
      cases hy : toolNames.contains
          (sanitizeToolName (decisionServiceId ++ " " ++ operationId)) with
      | false =>
        rw [hy] at hr
        simp only [Bool.false_eq_true, if_false, Except.ok.injEq] at hr
        subst hr
        exact sanitizeToolName_append_ne_empty decisionServiceId operationId
      | true =>
        rw [hy] at hr
        simp at hr

/-- Witness for C10: with a configured empty override for `mcpToolName.op`,
the generated default `D_op` is returned. -/
theorem empty_override_uses_generated_name_witness :
    getToolName envEmptyOverride "development" docDup1 "op" "s1" [] = Except.ok "D_op" := by
  have h := (empty_override_uses_generated_name envEmptyOverride "development" docDup1
    "op" "s1" [] rfl).2.1 rfl
  exact h.trans (congrArg Except.ok (by decide))

end DIMcp
